import Mathlib

/-!
Verification of the Tomasulo-Simulator engine (`tomasulo.ts`, refined variant).

The TypeScript source is shallowly embedded:
* JS numbers (always integral here) become `Int`; `Uint16Array` cells become
  `Nat` values `< 65536` with stores wrapped by `toUint16`.
* `x | null` fields become `Option`; the TS non-null assertion `x!` becomes
  `Option.getD` at sites where the value is provably present.
* The runtime value of a TS `enum` member is its numeric index, so `OpCode`
  is embedded as `Nat` with named constants.
* Exceptions (`throw new Error`) become `Except String`.
-/

set_option maxRecDepth 10000

abbrev OpCode := Nat

def OpCode.LOAD : OpCode := 0
def OpCode.STORE : OpCode := 1
def OpCode.BEQ : OpCode := 2
def OpCode.CALL : OpCode := 3
def OpCode.RET : OpCode := 4
def OpCode.ADD : OpCode := 5
def OpCode.SUB : OpCode := 6
def OpCode.NOR : OpCode := 7
def OpCode.MUL : OpCode := 8

/-- The `Instruction` record of `tomasulo.ts`: optional fields are `undefined`
until set; the class field initializer makes the default opcode `ADD`. -/
structure Instruction where
  opcode : OpCode := OpCode.ADD
  rA : Option Int := none
  rB : Option Int := none
  rC : Option Int := none
  offset : Option Int := none
  label : Option Int := none
deriving DecidableEq, Repr

instance : Inhabited Instruction := ⟨{}⟩

/-- JS `x & (2^w - 1)` on an integral JS number: bitwise ops coerce to int32
(value mod 2^32) and masking then yields the nonnegative residue mod `2^w`. -/
def jsMask (x : Int) (w : Nat) : Nat := (x.emod (2 ^ w)).toNat

/-- JS store into a `Uint16Array` cell: ToUint16 is the residue mod 2^16. -/
def toUint16 (x : Int) : Nat := (x.emod 65536).toNat

/-- `Instruction.encode` from `tomasulo.ts` (lines 70-96): `value & 0xffff`
with the per-class field layout; negative `offset`/`label` are pre-folded to
their two's-complement field value exactly as in the source. -/
def Instruction.encode (i : Instruction) : Nat :=
  let value := (i.opcode &&& 0xf) <<< 12
  let value :=
    if i.opcode = OpCode.CALL then
      -- CALL: [opcode(4)][label(7)][unused(5)]
      let label := i.label.getD 0
      -- `if (label < 0) label = (label + 128) & 0x7f`
      let labelBits := if label < 0 then jsMask (label + 128) 7 else jsMask label 7
      value ||| labelBits
    else if i.opcode = OpCode.LOAD ∨ i.opcode = OpCode.STORE ∨ i.opcode = OpCode.BEQ then
      -- [opcode(4)][rA(3)][rB(3)][offset(5)]
      let value := value ||| (jsMask (i.rA.getD 0) 3) <<< 9
      let value := value ||| (jsMask (i.rB.getD 0) 3) <<< 6
      let offset := i.offset.getD 0
      -- `if (offset < 0) offset = (offset + 32) & 0x1f`
      let offsetBits := if offset < 0 then jsMask (offset + 32) 5 else jsMask offset 5
      value ||| offsetBits
    else
      -- [opcode(4)][rA(3)][rB(3)][rC(3)][unused(3)]
      let value := value ||| (jsMask (i.rA.getD 0) 3) <<< 9
      let value := value ||| (jsMask (i.rB.getD 0) 3) <<< 6
      value ||| (jsMask (i.rC.getD 0) 3) <<< 3
  value &&& 0xffff

/-- `Instruction.decode` from `tomasulo.ts` (lines 98-120).  The JS
sign-extensions `label | 0xffffff80` (when bit 6 is set) and
`offset | 0xffffffe0` (when bit 4 is set) equal `label - 128` resp.
`offset - 32` in int32 arithmetic for field values below the width. -/
def Instruction.decode (encoded : Nat) : Instruction :=
  let opcode := (encoded >>> 12) &&& 0xf
  if opcode = OpCode.CALL then
    let labelRaw := encoded &&& 0x7f
    let label : Int := if labelRaw &&& 0x40 ≠ 0 then (labelRaw : Int) - 128 else (labelRaw : Int)
    { opcode := opcode, label := some label }
  else if opcode = OpCode.LOAD ∨ opcode = OpCode.STORE ∨ opcode = OpCode.BEQ then
    let rA := (encoded >>> 9) &&& 0x7
    let rB := (encoded >>> 6) &&& 0x7
    let offRaw := encoded &&& 0x1f
    let offset : Int := if offRaw &&& 0x10 ≠ 0 then (offRaw : Int) - 32 else (offRaw : Int)
    { opcode := opcode, rA := some (rA : Int), rB := some (rB : Int), offset := some offset }
  else
    { opcode := opcode,
      rA := some (((encoded >>> 9) &&& 0x7 : Nat) : Int),
      rB := some (((encoded >>> 6) &&& 0x7 : Nat) : Int),
      rC := some (((encoded >>> 3) &&& 0x7 : Nat) : Int) }

/-- Validity of an instruction in the sense of claim C1: exactly the fields of
its opcode class are populated, each within its documented range. -/
def Instruction.valid (i : Instruction) : Bool :=
  if i.opcode = OpCode.CALL then
    (match i.label with | some v => -64 ≤ v ∧ v ≤ 63 | none => False : Bool) &&
      i.rA == none && i.rB == none && i.rC == none && i.offset == none
  else if i.opcode = OpCode.LOAD ∨ i.opcode = OpCode.STORE ∨ i.opcode = OpCode.BEQ then
    (match i.rA with | some v => 0 ≤ v ∧ v ≤ 7 | none => False : Bool) &&
    (match i.rB with | some v => 0 ≤ v ∧ v ≤ 7 | none => False : Bool) &&
    (match i.offset with | some v => -16 ≤ v ∧ v ≤ 15 | none => False : Bool) &&
      i.rC == none && i.label == none
  else if i.opcode = OpCode.RET then
    i.rA == none && i.rB == none && i.rC == none && i.offset == none && i.label == none
  else if i.opcode = OpCode.ADD ∨ i.opcode = OpCode.SUB ∨ i.opcode = OpCode.NOR ∨
      i.opcode = OpCode.MUL then
    (match i.rA with | some v => 0 ≤ v ∧ v ≤ 7 | none => False : Bool) &&
    (match i.rB with | some v => 0 ≤ v ∧ v ≤ 7 | none => False : Bool) &&
    (match i.rC with | some v => 0 ≤ v ∧ v ≤ 7 | none => False : Bool) &&
      i.offset == none && i.label == none
  else
    false

lemma roundtrip_call : ∀ n ∈ Finset.range 128,
    Instruction.decode (Instruction.encode
        { opcode := OpCode.CALL, label := some ((n : Int) - 64) }) =
      { opcode := OpCode.CALL, label := some ((n : Int) - 64) } := by decide

set_option maxHeartbeats 4000000 in
lemma roundtrip_mem : ∀ op ∈ Finset.range 3, ∀ a ∈ Finset.range 8, ∀ b ∈ Finset.range 8,
    ∀ o ∈ Finset.range 32,
    Instruction.decode (Instruction.encode
        { opcode := op, rA := some (a : Int), rB := some (b : Int),
          offset := some ((o : Int) - 16) }) =
      { opcode := op, rA := some (a : Int), rB := some (b : Int),
        offset := some ((o : Int) - 16) } := by decide

set_option maxHeartbeats 4000000 in
lemma roundtrip_alu : ∀ d ∈ Finset.range 4, ∀ a ∈ Finset.range 8, ∀ b ∈ Finset.range 8,
    ∀ c ∈ Finset.range 8,
    Instruction.decode (Instruction.encode
        { opcode := d + 5, rA := some (a : Int), rB := some (b : Int),
          rC := some (c : Int) }) =
      { opcode := d + 5, rA := some (a : Int), rB := some (b : Int),
        rC := some (c : Int) } := by decide

lemma roundtrip_ret :
    Instruction.decode (Instruction.encode { opcode := OpCode.RET }) =
      { opcode := OpCode.RET, rA := some 0, rB := some 0, rC := some 0 } := by decide

/-- C1 (counterexample): a valid `RET` instruction (no operand fields set) does
not round-trip: `decode(encode(RET))` comes back with `rA = rB = rC = 0`
populated, because `RET` is encoded through the ALU layout with `?? 0`
defaults and decoded by the ALU branch, which always sets all three
register fields. -/
theorem C1_counterexample :
    Instruction.valid { opcode := OpCode.RET } = true ∧
      Instruction.decode (Instruction.encode { opcode := OpCode.RET }) ≠
        { opcode := OpCode.RET } := by decide

/-- C1 (amended): for every valid instruction whose opcode is not `RET`,
`decode(encode(i)) = i`; for a valid `RET`, decoding the encoding yields `RET`
with `rA = rB = rC = 0` populated (all other fields unset). -/
theorem C1_roundtrip (i : Instruction) (h : i.valid = true) :
    Instruction.decode i.encode =
      (if i.opcode = OpCode.RET then
        { opcode := OpCode.RET, rA := some 0, rB := some 0, rC := some 0 }
      else i) := by
  obtain ⟨op, rA, rB, rC, off, lab⟩ := i
  unfold Instruction.valid at h
  dsimp only at h ⊢
  split at h
  · -- CALL class
    rename_i hCALL
    subst hCALL
    cases lab with
    | none => simp at h
    | some v =>
      simp only [Bool.and_eq_true, beq_iff_eq, decide_eq_true_eq] at h
      obtain ⟨⟨⟨⟨hv, hA⟩, hB⟩, hC⟩, hO⟩ := h
      subst hA; subst hB; subst hC; subst hO
      rw [if_neg (by decide : ¬ (OpCode.CALL = OpCode.RET))]
      have hveq : v = (((v + 64).toNat : Nat) : Int) - 64 := by omega
      rw [hveq]
      exact roundtrip_call (v + 64).toNat (by simp only [Finset.mem_range]; omega)
  · rename_i hCALL
    split at h
    · -- LOAD / STORE / BEQ class
      rename_i hMEM
      cases rA with
      | none => simp at h
      | some a =>
        cases rB with
        | none => simp at h
        | some b =>
          cases off with
          | none => simp at h
          | some o =>
            simp only [Bool.and_eq_true, beq_iff_eq, decide_eq_true_eq] at h
            obtain ⟨⟨⟨⟨ha, hb⟩, ho⟩, hC⟩, hL⟩ := h
            subst hC; subst hL
            have hopRET : ¬ (op = OpCode.RET) := by
              rcases hMEM with h1 | h1 | h1 <;> subst h1 <;> decide
            rw [if_neg hopRET]
            have haeq : (a : Int) = ((a.toNat : Nat) : Int) := by omega
            have hbeq : (b : Int) = ((b.toNat : Nat) : Int) := by omega
            have hoeq : (o : Int) = (((o + 16).toNat : Nat) : Int) - 16 := by omega
            rw [haeq, hbeq, hoeq]
            refine roundtrip_mem op ?_ a.toNat ?_ b.toNat ?_ (o + 16).toNat ?_ <;>
              simp only [Finset.mem_range]
            · rcases hMEM with h1 | h1 | h1 <;> subst h1 <;> decide
            · omega
            · omega
            · omega
    · rename_i hMEM
      split at h
      · -- RET
        rename_i hRET
        subst hRET
        simp only [Bool.and_eq_true, beq_iff_eq] at h
        obtain ⟨⟨⟨⟨hA, hB⟩, hC⟩, hO⟩, hL⟩ := h
        subst hA; subst hB; subst hC; subst hO; subst hL
        rw [if_pos rfl]
        exact roundtrip_ret
      · rename_i hRET
        split at h
        · -- ADD / SUB / NOR / MUL class
          rename_i hALU
          cases rA with
          | none => simp at h
          | some a =>
            cases rB with
            | none => simp at h
            | some b =>
              cases rC with
              | none => simp at h
              | some c =>
                simp only [Bool.and_eq_true, beq_iff_eq, decide_eq_true_eq] at h
                obtain ⟨⟨⟨⟨ha, hb⟩, hc⟩, hO⟩, hL⟩ := h
                subst hO; subst hL
                rw [if_neg hRET]
                have hopeq : op = (op - 5) + 5 := by
                  rcases hALU with h1 | h1 | h1 | h1 <;> subst h1 <;> decide
                have haeq : (a : Int) = ((a.toNat : Nat) : Int) := by omega
                have hbeq : (b : Int) = ((b.toNat : Nat) : Int) := by omega
                have hceq : (c : Int) = ((c.toNat : Nat) : Int) := by omega
                rw [hopeq, haeq, hbeq, hceq]
                refine roundtrip_alu (op - 5) ?_ a.toNat ?_ b.toNat ?_ c.toNat ?_ <;>
                  simp only [Finset.mem_range]
                · rcases hALU with h1 | h1 | h1 | h1 <;> subst h1 <;> decide
                · omega
                · omega
                · omega
        · -- impossible: valid is false for any other opcode
          simp at h

def instrW : Instruction :=
  { opcode := OpCode.LOAD, rA := some 1, rB := some 7, offset := some (-3) }

/-- Witness for the amended C1 round-trip at a concrete valid instruction. -/
theorem C1_roundtrip_witness :
    Instruction.valid instrW = true ∧
      Instruction.decode (Instruction.encode instrW) =
        (if instrW.opcode = OpCode.RET then
          { opcode := OpCode.RET, rA := some 0, rB := some 0, rC := some 0 }
        else instrW) :=
  ⟨by decide, C1_roundtrip instrW (by decide)⟩

/-! ## Instruction setters (tomasulo.ts lines 37-68) -/

def Instruction.setrA (i : Instruction) (rA : Int) : Except String Instruction :=
  if rA < 0 ∨ 7 < rA then .error "Invalid register number (must be 0-7)"
  else .ok { i with rA := some rA }

def Instruction.setrB (i : Instruction) (rB : Int) : Except String Instruction :=
  if rB < 0 ∨ 7 < rB then .error "Invalid register number (must be 0-7)"
  else .ok { i with rB := some rB }

def Instruction.setrC (i : Instruction) (rC : Int) : Except String Instruction :=
  if rC < 0 ∨ 7 < rC then .error "Invalid register number (must be 0-7)"
  else .ok { i with rC := some rC }

def Instruction.setOffset (i : Instruction) (value : Int) : Except String Instruction :=
  if value < -16 ∨ 15 < value then .error "Offset must be a 5-bit signed value (-16 to 15)"
  else .ok { i with offset := some value }

def Instruction.setLabel (i : Instruction) (label : Int) : Except String Instruction :=
  if label < -64 ∨ 63 < label then .error "Label must be a 7-bit signed value (-64 to 63)"
  else .ok { i with label := some label }

/-! ## Engine state (tomasulo.ts lines 159-228) -/

/-- `ReservationStation` (tomasulo.ts lines 159-191).  The cycle counters are
`Int` because the hazard-stall path writes `cycles_needed - 1`, which in JS can
go to `-1` when `cycles_needed = 0`. -/
structure ReservationStation where
  name : String
  unit : OpCode
  busy : Bool := false
  Operation : Option String := none
  Vj : Option Int := none
  Vk : Option Int := none
  Qj : Option String := none
  Qk : Option String := none
  instruction : Option Instruction := none
  result : Option Int := none
  PC_Original : Option Int := none
  A : Option Int := none
  cycles_needed : Int := 0
  cycles_passed : Int := 0
  cycles_needed_to_compute_address : Int := 0
  cycles_needed_to_read_write_from_memory : Int := 0
deriving DecidableEq, Repr

instance : Inhabited ReservationStation := ⟨{ name := "", unit := OpCode.LOAD }⟩

/-- An `IssuedTracker`/`ExecutedTracker` entry.  In the source the `RS` field is
a live reference into the `RS` array; stations are each stored at exactly one
array position, so the reference is embedded as the station's index. -/
structure TrackEntry where
  Instr : Instruction
  clock : Nat
  rs : Nat
deriving DecidableEq, Repr

/-- A `WriteBackTracker` entry.  Here the source stores a freshly constructed
copy of the station, so the copy itself is embedded. -/
structure WBEntry where
  Instr : Instruction
  clock : Nat
  rs : ReservationStation
deriving DecidableEq, Repr

/-- The `Tomasulo` engine state (tomasulo.ts lines 193-228).  `Memory` and
`Registers` are the `Uint16Array`s as total functions (cells `< 65536`);
`RegisterStatus` entries are `number | string`, always the sentinel `0` or a
station name, embedded as `Option String` with `none` for the sentinel. -/
structure Tomasulo where
  Memory : Nat → Nat
  Registers : Nat → Nat
  Instructions : List Instruction := []
  RS : List ReservationStation := []
  CDB : Option Int := none
  RegisterStatus : Nat → Option String
  PC : Int := 0
  IssuedTracker : List TrackEntry := []
  ExecutedTracker : List TrackEntry := []
  WriteBackTracker : List WBEntry := []
  clock : Nat := 0
  isBranchPending : Bool := false
  branchMispredictions : Nat := 0
  branchInstructions : Nat := 0
  IssuedAfterBranch : Nat := 0
  isJumpPending : Bool := false

/-- The constructor: zeroed 65536-word memory, 8 zero registers, no stations,
`RegisterStatus` all sentinel. -/
def Tomasulo.new : Tomasulo :=
  { Memory := fun _ => 0, Registers := fun _ => 0,
    RegisterStatus := fun _ => none }

/-- `this.RS[k]`, where `k` is an embedded station reference. -/
def Tomasulo.rsAt (s : Tomasulo) (k : Nat) : ReservationStation := s.RS.getD k default

/-! ## Configuration operations (tomasulo.ts lines 229-279) -/

def Tomasulo.addInstruction (s : Tomasulo) (instruction : Instruction) (address : Int) :
    Except String Tomasulo :=
  if address < 0 ∨ 65536 ≤ address then .error "Starting address out of bounds"
  else .ok { s with
    Instructions := s.Instructions ++ [instruction],
    Memory := fun a => if a = address.toNat then instruction.encode else s.Memory a }

def Tomasulo.addData (s : Tomasulo) (data : List Nat) (address : Int) :
    Except String Tomasulo :=
  if address < 0 ∨ 65536 < address + data.length then .error "Memory access out of bounds"
  else .ok { s with
    Memory := fun a =>
      if address.toNat ≤ a ∧ a < address.toNat + data.length then data.getD (a - address.toNat) 0
      else s.Memory a }

def Tomasulo.addStartAddress (s : Tomasulo) (address : Int) : Except String Tomasulo :=
  if address < 0 ∨ 65536 ≤ address then .error "Starting address out of bounds"
  else .ok { s with PC := address }

def Tomasulo.addReservationStation (s : Tomasulo) (name : String) (unit : OpCode)
    (cycles_needed cca crw : Int) : Tomasulo :=
  let e : ReservationStation :=
    { name := name, unit := unit, cycles_needed := cycles_needed,
      cycles_needed_to_compute_address := cca,
      cycles_needed_to_read_write_from_memory := crw }
  { s with RS := s.RS ++ [e] }

/-! ## Issue (tomasulo.ts lines 280-488) -/

/-- The operand-capture idiom of `Issue`: returns the `(V, Q)` pair for source
register `r` — the register value if no station is pending on it, else the
pending station's name as a wait-tag.  Source register indices come from
`decode`, hence are in `[0,7]`. -/
def Tomasulo.captureOperand (s : Tomasulo) (r : Int) : Option Int × Option String :=
  if s.RegisterStatus r.toNat = none then ((some (s.Registers r.toNat : Int) : Option Int), none)
  else (none, s.RegisterStatus r.toNat)

def Tomasulo.issueLOAD (s : Tomasulo) (instr : Instruction) : Tomasulo :=
  match s.RS.findIdx? (fun e => !e.busy && e.unit == OpCode.LOAD) with
  | none => s
  | some k =>
    let e0 := s.rsAt k
    let cap := s.captureOperand (instr.rB.getD 0)
    let e := { e0 with Vj := cap.1, Qj := cap.2, busy := true, Operation := some "LOAD",
                       instruction := some instr, PC_Original := some s.PC,
                       A := instr.offset }
    let rA := instr.rA.getD 0
    { s with
      RS := s.RS.set k e,
      RegisterStatus := fun r =>
        if r = rA.toNat then (if rA = 0 then none else some e.name) else s.RegisterStatus r,
      IssuedTracker := s.IssuedTracker ++ [{ Instr := instr, clock := s.clock, rs := k }],
      PC := s.PC + 1,
      IssuedAfterBranch :=
        if s.isBranchPending then s.IssuedAfterBranch + 1 else s.IssuedAfterBranch }

def Tomasulo.issueSTORE (s : Tomasulo) (instr : Instruction) : Tomasulo :=
  match s.RS.findIdx? (fun e => !e.busy && e.unit == OpCode.STORE) with
  | none => s
  | some k =>
    let e0 := s.rsAt k
    let capj := s.captureOperand (instr.rB.getD 0)
    let capk := s.captureOperand (instr.rA.getD 0)
    let e := { e0 with Vj := capj.1, Qj := capj.2, busy := true, A := instr.offset,
                       Vk := capk.1, Qk := capk.2,
                       instruction := some instr, PC_Original := some s.PC,
                       Operation := some "STORE" }
    { s with
      RS := s.RS.set k e,
      IssuedTracker := s.IssuedTracker ++ [{ Instr := instr, clock := s.clock, rs := k }],
      IssuedAfterBranch :=
        if s.isBranchPending then s.IssuedAfterBranch + 1 else s.IssuedAfterBranch,
      PC := s.PC + 1 }

/-- The nested ternary of the ALU-class Issue branch: ADD and SUB share the
ADD unit; NOR and MUL have their own. -/
def aluUnitFor (instr : Instruction) : OpCode :=
  if instr.opcode == OpCode.MUL then OpCode.MUL
  else if instr.opcode == OpCode.NOR then OpCode.NOR
  else if instr.opcode == OpCode.ADD then OpCode.ADD
  else OpCode.ADD

def Tomasulo.issueALU (s : Tomasulo) (instr : Instruction) : Tomasulo :=
  match s.RS.findIdx? (fun e => !e.busy && e.unit == aluUnitFor instr) with
  | none => s
  | some k =>
    let e0 := s.rsAt k
    let capj := s.captureOperand (instr.rB.getD 0)
    let capk := s.captureOperand (instr.rC.getD 0)
    let opName := if instr.opcode == OpCode.ADD then "ADD"
      else if instr.opcode == OpCode.SUB then "SUB"
      else if instr.opcode == OpCode.NOR then "NOR"
      else "MUL"
    let e := { e0 with Vj := capj.1, Qj := capj.2, Vk := capk.1, Qk := capk.2,
                       busy := true, instruction := some instr, PC_Original := some s.PC,
                       Operation := some opName }
    let rA := instr.rA.getD 0
    { s with
      RS := s.RS.set k e,
      RegisterStatus := fun r =>
        if r = rA.toNat then (if rA = 0 then none else some e.name) else s.RegisterStatus r,
      IssuedTracker := s.IssuedTracker ++ [{ Instr := instr, clock := s.clock, rs := k }],
      PC := s.PC + 1,
      IssuedAfterBranch :=
        if s.isBranchPending then s.IssuedAfterBranch + 1 else s.IssuedAfterBranch }

def Tomasulo.issueBEQ (s : Tomasulo) (instr : Instruction) : Tomasulo :=
  match s.RS.findIdx? (fun e => !e.busy && e.unit == OpCode.BEQ) with
  | none => s
  | some k =>
    let e0 := s.rsAt k
    let capj := s.captureOperand (instr.rA.getD 0)
    let capk := s.captureOperand (instr.rB.getD 0)
    let e := { e0 with Vj := capj.1, Qj := capj.2, Vk := capk.1, Qk := capk.2,
                       A := instr.offset, Operation := some "BEQ", busy := true,
                       instruction := some instr, PC_Original := some s.PC }
    { s with
      RS := s.RS.set k e,
      IssuedTracker := s.IssuedTracker ++ [{ Instr := instr, clock := s.clock, rs := k }],
      -- `IssuedAfterBranch` is incremented before `isBranchPending` is set,
      -- so it reads the pre-issue flag
      IssuedAfterBranch :=
        if s.isBranchPending then s.IssuedAfterBranch + 1 else s.IssuedAfterBranch,
      isBranchPending := true,
      branchInstructions := s.branchInstructions + 1,
      PC := s.PC + 1 }

def Tomasulo.issueCALLRET (s : Tomasulo) (instr : Instruction) : Tomasulo :=
  match s.RS.findIdx? (fun e => !e.busy && e.unit == OpCode.CALL) with
  | none => s
  | some k =>
    let e0 := s.rsAt k
    let e := { e0 with busy := true,
                       A := if instr.opcode == OpCode.CALL then instr.label
                            else some (s.Registers 1 : Int),
                       Operation := some (if instr.opcode == OpCode.CALL then "CALL" else "RET"),
                       instruction := some instr, PC_Original := some s.PC }
    { s with
      RS := s.RS.set k e,
      IssuedTracker := s.IssuedTracker ++ [{ Instr := instr, clock := s.clock, rs := k }],
      isJumpPending := true,
      PC := s.PC + 1,
      IssuedAfterBranch :=
        if s.isBranchPending then s.IssuedAfterBranch + 1 else s.IssuedAfterBranch }

/-- `Issue` (tomasulo.ts lines 280-488).  The `try/catch` of the source is not
modelled: `decode` masks every field into its validated range, so the
constructor calls inside `decode` never throw and the catch is unreachable. -/
def Tomasulo.Issue (s : Tomasulo) : Tomasulo :=
  if s.isJumpPending then s
  else if s.PC < 0 ∨ 65536 ≤ s.PC then s
  else
    let encodedInstr := s.Memory s.PC.toNat
    if encodedInstr = 0 then s  -- treat 0 as NOP or empty
    else
      let instr := Instruction.decode encodedInstr
      if s.PC < 65536 then
        if instr.opcode = OpCode.LOAD then s.issueLOAD instr
        else if instr.opcode = OpCode.STORE then s.issueSTORE instr
        else if instr.opcode = OpCode.ADD ∨ instr.opcode = OpCode.SUB ∨
            instr.opcode = OpCode.NOR ∨ instr.opcode = OpCode.MUL then s.issueALU instr
        else if instr.opcode = OpCode.BEQ then s.issueBEQ instr
        else if instr.opcode = OpCode.CALL ∨ instr.opcode = OpCode.RET then
          s.issueCALLRET instr
        else s
      else s

/-! ## Execute (tomasulo.ts lines 490-797) -/

/-- `getLatestIssueClock` (tomasulo.ts lines 899-910): the largest issue clock
among this station's `IssuedTracker` entries, `none` embedding the JS
`Infinity` returned when there is no entry. -/
def Tomasulo.getLatestIssueClock (s : Tomasulo) (k : Nat) : Option Nat :=
  match s.IssuedTracker.filter (fun e => e.rs == k) with
  | [] => none
  | e :: es => some ((e :: es).foldl
      (fun latestClock e2 => if e2.clock > latestClock then e2.clock else latestClock) e.clock)

/-- `<` on issue clocks with `none` as `+Infinity`. -/
def ltClock : Option Nat → Option Nat → Bool
  | none, _ => false
  | some _, none => true
  | some n, some m => decide (n < m)

/-- Reading `this.Memory[a]`: an out-of-range typed-array read yields
`undefined`, which the `result != null` writeback guard treats like `null`,
hence `none`. -/
def Tomasulo.memRead (s : Tomasulo) (a : Int) : Option Int :=
  if 0 ≤ a ∧ a < 65536 then some (s.Memory a.toNat : Int) else none

/-- Writing `this.Memory[a] = v`: stores wrap to 16 bits, out-of-range
typed-array writes are silently dropped. -/
def memWrite (m : Nat → Nat) (a v : Int) : Nat → Nat :=
  if 0 ≤ a ∧ a < 65536 then (fun x => if x = a.toNat then toUint16 v else m x) else m

/-- The field clear performed on a station squashed by a taken branch
(tomasulo.ts lines 630-637): busy, result and operand fields only — `A`,
`Operation`, `cycles_passed` and `PC_Original` are left behind. -/
def squashStation (e : ReservationStation) : ReservationStation :=
  { e with busy := false, result := none, instruction := none,
           Qj := none, Qk := none, Vj := none, Vk := none }

/-- The field clear performed on every station release (identical lists in the
STORE/BEQ/CALL completion blocks and in `WriteBack`). -/
def clearStation (e : ReservationStation) : ReservationStation :=
  { e with busy := false, Qj := none, Qk := none, Vj := none, Vk := none,
           A := none, result := none, Operation := none, instruction := none,
           PC_Original := none, cycles_passed := 0 }

/-- The LOAD completion hazard scan (tomasulo.ts lines 505-519): some busy
STORE station whose current `A` equals this station's current `A` and whose
latest issue clock is strictly smaller. -/
def Tomasulo.loadHazard (s : Tomasulo) (k : Nat) : Bool :=
  (List.range s.RS.length).any (fun j =>
    (s.rsAt j).unit == OpCode.STORE && (s.rsAt j).busy &&
      (s.rsAt j).A == (s.rsAt k).A &&
      ltClock (s.getLatestIssueClock j) (s.getLatestIssueClock k))

/-- The STORE completion hazard scan (tomasulo.ts lines 549-562): like
`loadHazard` but against older busy LOAD or STORE stations. -/
def Tomasulo.storeHazard (s : Tomasulo) (k : Nat) : Bool :=
  (List.range s.RS.length).any (fun j =>
    ((s.rsAt j).unit == OpCode.LOAD || (s.rsAt j).unit == OpCode.STORE) && (s.rsAt j).busy &&
      (s.rsAt j).A == (s.rsAt k).A &&
      ltClock (s.getLatestIssueClock j) (s.getLatestIssueClock k))

/-- The LOAD block of `execute` for station `k` (tomasulo.ts lines 492-531). -/
def Tomasulo.execLoadBlock (s : Tomasulo) (k : Nat) : Tomasulo :=
  let element := s.rsAt k
  if element.unit = OpCode.LOAD then
    let s1 :=
      if element.busy = true ∧ element.cycles_passed = element.cycles_needed_to_compute_address ∧
          s.isBranchPending = false then
        { s with RS := s.RS.set k { element with A := some (element.Vj.getD 0 + element.A.getD 0) } }
      else s
    let element := s1.rsAt k
    if element.busy = true ∧ element.cycles_passed = element.cycles_needed ∧
        s1.isBranchPending = false then
      if s1.loadHazard k then
        { s1 with RS := s1.RS.set k { element with cycles_passed := element.cycles_needed - 1 } }
      else
        { s1 with
          RS := s1.RS.set k { element with result := s1.memRead (element.A.getD 0) },
          ExecutedTracker := s1.ExecutedTracker ++
            [{ Instr := element.instruction.getD default, clock := s1.clock, rs := k }] }
    else s1
  else s

/-- The STORE block of `execute` for station `k` (tomasulo.ts lines 535-611). -/
def Tomasulo.execStoreBlock (s : Tomasulo) (k : Nat) : Tomasulo :=
  let element := s.rsAt k
  if element.unit = OpCode.STORE then
    let s1 :=
      if element.busy = true ∧ element.cycles_passed = element.cycles_needed_to_compute_address ∧
          s.isBranchPending = false then
        { s with RS := s.RS.set k { element with A := some (element.Vj.getD 0 + element.A.getD 0) } }
      else s
    let element := s1.rsAt k
    if element.busy = true ∧ element.cycles_passed = element.cycles_needed ∧
        s1.isBranchPending = false then
      if s1.storeHazard k then
        { s1 with RS := s1.RS.set k { element with cycles_passed := element.cycles_needed - 1 } }
      else
        let instrClone := element.instruction.getD default
        let rsCopy : ReservationStation :=
          { name := element.name, unit := element.unit,
            cycles_needed := element.cycles_needed,
            cycles_needed_to_compute_address := element.cycles_needed_to_compute_address,
            cycles_needed_to_read_write_from_memory :=
              element.cycles_needed_to_read_write_from_memory,
            PC_Original := element.PC_Original }
        { s1 with
          Memory := memWrite s1.Memory (element.A.getD 0) (element.Vk.getD 0),
          ExecutedTracker := s1.ExecutedTracker ++
            [{ Instr := instrClone, clock := s1.clock, rs := k }],
          WriteBackTracker := s1.WriteBackTracker ++
            [{ Instr := instrClone, clock := s1.clock, rs := rsCopy }],
          RS := s1.RS.set k (clearStation element) }
    else s1
  else s

/-- JS `arr.splice(start)` truncation: the number of elements kept from the
front, for `start = len - n` (negative `start` counts back from the end,
clamped at 0). -/
def jsSpliceStart (len n : Nat) : Nat :=
  let start : Int := (len : Int) - (n : Int)
  if start < 0 then (max ((len : Int) + start) 0).toNat else min start.toNat len

/-- The BEQ block of `execute` for station `k` (tomasulo.ts lines 615-685).
The squash guard `rs.PC_Original! > element.PC_Original!` coerces a `null`
`PC_Original` to `0`, hence `Option.getD 0` on both sides. -/
def Tomasulo.execBEQBlock (s : Tomasulo) (k : Nat) : Tomasulo :=
  let element := s.rsAt k
  if element.unit = OpCode.BEQ then
    if element.busy = true ∧ element.cycles_passed = element.cycles_needed then
      let s1 :=
        if element.Vj = element.Vk then
          { s with
            PC := element.A.getD 0 + element.PC_Original.getD 0 + 1,
            isBranchPending := false,
            branchMispredictions := s.branchMispredictions + 1,
            IssuedTracker :=
              s.IssuedTracker.take (jsSpliceStart s.IssuedTracker.length s.IssuedAfterBranch),
            IssuedAfterBranch := 0,
            RS := s.RS.map (fun rs =>
              if rs.PC_Original.getD 0 > element.PC_Original.getD 0 then squashStation rs
              else rs) }
        else
          { s with PC := element.PC_Original.getD 0 + 1, isBranchPending := false }
      let instrClone := element.instruction.getD default
      let rsCopy : ReservationStation :=
        { name := element.name, unit := element.unit, cycles_needed := element.cycles_needed,
          PC_Original := element.PC_Original }
      { s1 with
        ExecutedTracker := s1.ExecutedTracker ++
          [{ Instr := instrClone, clock := s1.clock, rs := k }],
        WriteBackTracker := s1.WriteBackTracker ++
          [{ Instr := instrClone, clock := s1.clock, rs := rsCopy }],
        RS := s1.RS.set k (clearStation (s1.rsAt k)) }
    else s
  else s

/-- The CALL/RET block of `execute` for station `k` (tomasulo.ts lines 688-746). -/
def Tomasulo.execCallBlock (s : Tomasulo) (k : Nat) : Tomasulo :=
  let element := s.rsAt k
  if element.unit = OpCode.CALL then
    if element.busy = true ∧ element.cycles_passed = element.cycles_needed ∧
        s.isBranchPending = false then
      let s1 :=
        if element.Operation = some "CALL" then
          { s with
            Registers := fun r =>
              if r = 1 then toUint16 (element.PC_Original.getD 0 + 1) else s.Registers r,
            PC := element.A.getD 0,
            isJumpPending := false }
        else s
      let s2 :=
        if element.Operation = some "RET" then
          { s1 with PC := element.A.getD 0, isJumpPending := false }
        else s1
      let instrClone := element.instruction.getD default
      let rsCopy : ReservationStation :=
        { name := element.name, unit := element.unit, cycles_needed := element.cycles_needed,
          PC_Original := element.PC_Original }
      { s2 with
        ExecutedTracker := s2.ExecutedTracker ++
          [{ Instr := instrClone, clock := s2.clock, rs := k }],
        WriteBackTracker := s2.WriteBackTracker ++
          [{ Instr := instrClone, clock := s2.clock, rs := rsCopy }],
        RS := s2.RS.set k (clearStation (s2.rsAt k)) }
    else s
  else s

/-- The ADD/SUB block of `execute` for station `k` (tomasulo.ts lines 748-766). -/
def Tomasulo.execAddBlock (s : Tomasulo) (k : Nat) : Tomasulo :=
  let element := s.rsAt k
  if element.unit = OpCode.ADD then
    if element.busy = true ∧ element.cycles_passed = element.cycles_needed ∧
        s.isBranchPending = false then
      let element := if element.Operation = some "ADD" then
          { element with result := some (element.Vj.getD 0 + element.Vk.getD 0) }
        else element
      let element := if element.Operation = some "SUB" then
          { element with result := some (element.Vj.getD 0 - element.Vk.getD 0) }
        else element
      { s with
        RS := s.RS.set k element,
        ExecutedTracker := s.ExecutedTracker ++
          [{ Instr := element.instruction.getD default, clock := s.clock, rs := k }] }
    else s
  else s

/-- JS 32-bit signed coercion (`ToInt32`). -/
def toInt32 (x : Int) : Int := (x + 2 ^ 31).emod (2 ^ 32) - 2 ^ 31

/-- JS `~(a | b)` on integral numbers: int32 bitwise OR then NOT. -/
def jsNor (a b : Int) : Int := -(Int.lor (toInt32 a) (toInt32 b)) - 1

/-- The NOR block of `execute` for station `k` (tomasulo.ts lines 768-781). -/
def Tomasulo.execNorBlock (s : Tomasulo) (k : Nat) : Tomasulo :=
  let element := s.rsAt k
  if element.unit = OpCode.NOR then
    if element.busy = true ∧ element.cycles_passed = element.cycles_needed ∧
        s.isBranchPending = false then
      { s with
        RS := s.RS.set k
          { element with result := some (jsNor (element.Vj.getD 0) (element.Vk.getD 0)) },
        ExecutedTracker := s.ExecutedTracker ++
          [{ Instr := element.instruction.getD default, clock := s.clock, rs := k }] }
    else s
  else s

/-- The MUL block of `execute` for station `k` (tomasulo.ts lines 783-796). -/
def Tomasulo.execMulBlock (s : Tomasulo) (k : Nat) : Tomasulo :=
  let element := s.rsAt k
  if element.unit = OpCode.MUL then
    if element.busy = true ∧ element.cycles_passed = element.cycles_needed ∧
        s.isBranchPending = false then
      { s with
        RS := s.RS.set k
          { element with result := some (element.Vj.getD 0 * element.Vk.getD 0) },
        ExecutedTracker := s.ExecutedTracker ++
          [{ Instr := element.instruction.getD default, clock := s.clock, rs := k }] }
    else s
  else s

/-- One iteration of the `execute` loop body: all unit blocks applied to
station `k` in source order. -/
def Tomasulo.executeStep (s : Tomasulo) (k : Nat) : Tomasulo :=
  ((((((s.execLoadBlock k).execStoreBlock k).execBEQBlock k).execCallBlock
      k).execAddBlock k).execNorBlock k).execMulBlock k

/-- `execute` (tomasulo.ts lines 490-797): the loop over the station array,
whose length no block changes. -/
def Tomasulo.execute (s : Tomasulo) : Tomasulo :=
  (List.range s.RS.length).foldl Tomasulo.executeStep s

/-! ## WriteBack (tomasulo.ts lines 799-870) -/

/-- The broadcast body of `WriteBack` once an entry `e` wins the CDB:
registers update (first matching Register-Status entry only, register 0
hard-wired to 0), wakeup of waiting stations, release of the producing
station, tracker entry.  `this.CDB` is set and reset to `null` inside the
same block, so it ends `none`. -/
def Tomasulo.wbBroadcast (s : Tomasulo) (e : TrackEntry) : Tomasulo :=
  let rs := s.rsAt e.rs
  let cdb := rs.result.getD 0
  let regIdx := (List.range 8).find? (fun i => s.RegisterStatus i == some rs.name)
  let Registers := match regIdx with
    | some i => fun r => if r = i then (if i = 0 then 0 else toUint16 cdb) else s.Registers r
    | none => s.Registers
  let RegisterStatus := match regIdx with
    | some i => fun r => if r = i then none else s.RegisterStatus r
    | none => s.RegisterStatus
  let RSList := s.RS.map (fun e2 =>
    let e2 := if e2.Qj == some rs.name then { e2 with Vj := some cdb, Qj := none } else e2
    if e2.Qk == some rs.name then { e2 with Vk := some cdb, Qk := none } else e2)
  let rsCopy : ReservationStation :=
    { name := rs.name, unit := rs.unit, cycles_needed := rs.cycles_needed,
      cycles_needed_to_compute_address := rs.cycles_needed_to_compute_address,
      cycles_needed_to_read_write_from_memory := rs.cycles_needed_to_read_write_from_memory,
      PC_Original := rs.PC_Original }
  { s with
    CDB := none,
    Registers := Registers,
    RegisterStatus := RegisterStatus,
    RS := RSList.set e.rs (clearStation (RSList.getD e.rs default)),
    WriteBackTracker := s.WriteBackTracker ++
      [{ Instr := e.Instr, clock := s.clock, rs := rsCopy }] }

/-- The `WriteBack` scan over the Issued history in order, stopping (`break`)
after the first broadcast; also returns how many broadcasts were performed. -/
def Tomasulo.writeBackAux (s : Tomasulo) : List TrackEntry → Tomasulo × Nat
  | [] => (s, 0)
  | e :: rest =>
    let rs := s.rsAt e.rs
    if rs.result ≠ none ∧ rs.cycles_passed > rs.cycles_needed ∧
        s.isBranchPending = false ∧ s.CDB = none then
      if rs.unit = OpCode.LOAD ∨ rs.unit = OpCode.ADD ∨ rs.unit = OpCode.NOR ∨
          rs.unit = OpCode.MUL then
        (s.wbBroadcast e, 1)
      else s.writeBackAux rest
    else s.writeBackAux rest

/-- `WriteBack` (tomasulo.ts lines 799-870). -/
def Tomasulo.WriteBack (s : Tomasulo) : Tomasulo := (s.writeBackAux s.IssuedTracker).1

/-! ## Cycle advance and step (tomasulo.ts lines 871-891, 973-979) -/

/-- `incrementCyclesPassed` (tomasulo.ts lines 871-891). -/
def Tomasulo.incrementCyclesPassed (s : Tomasulo) : Tomasulo :=
  { s with RS := s.RS.map fun rs =>
      if !rs.busy then rs
      else if rs.result ≠ none ∧ rs.cycles_passed = rs.cycles_needed then
        { rs with cycles_passed := rs.cycles_passed + 1 }
      else if rs.cycles_passed > rs.cycles_needed then rs
      else if rs.Qj = none ∧ rs.Qk = none then { rs with cycles_passed := rs.cycles_passed + 1 }
      else rs }

/-- `step` (tomasulo.ts lines 973-979). -/
def Tomasulo.step (s : Tomasulo) : Tomasulo :=
  let s1 := s.incrementCyclesPassed
  let s2 := s1.Issue
  let s3 := s2.execute
  let s4 := s3.WriteBack
  { s4 with clock := s4.clock + 1 }

/-- The number of CDB broadcasts performed by one `step()` call. -/
def Tomasulo.stepBroadcasts (s : Tomasulo) : Nat :=
  let s3 := s.incrementCyclesPassed.Issue.execute
  (s3.writeBackAux s3.IssuedTracker).2

/-! ## Concrete drivers -/

/-- Unwrap a configuration call that is known to be in range. -/
def okOr (r : Except String Tomasulo) (s : Tomasulo) : Tomasulo :=
  match r with | .ok t => t | .error _ => s

/-- The driver scenario of the repository (registers `[0,10,5,3,2,1,7,100]`,
`Memory[100]=42`, `Memory[101]=77`, latency-2 ADD/LOAD/STORE stations with
1-cycle address sub-latency for LOAD/STORE, latency-3 MUL, the five-instruction
program at addresses 0..4, start address 0). -/
def driverC2 : Tomasulo :=
  let s := Tomasulo.new
  let s := { s with
    Registers := fun r => [0,10,5,3,2,1,7,100].getD r 0,
    Memory := fun a => if a = 100 then 42 else if a = 101 then 77 else 0 }
  let s := s.addReservationStation "ADD1" OpCode.ADD 2 0 0
  let s := s.addReservationStation "ADD2" OpCode.ADD 2 0 0
  let s := s.addReservationStation "MUL1" OpCode.MUL 3 0 0
  let s := s.addReservationStation "LOAD1" OpCode.LOAD 2 1 1
  let s := s.addReservationStation "STORE1" OpCode.STORE 2 1 1
  let s := okOr (s.addInstruction
    { opcode := OpCode.LOAD, rA := some 1, rB := some 7, offset := some 0 } 0) s
  let s := okOr (s.addInstruction
    { opcode := OpCode.ADD, rA := some 2, rB := some 1, rC := some 3 } 1) s
  let s := okOr (s.addInstruction
    { opcode := OpCode.ADD, rA := some 4, rB := some 5, rC := some 6 } 2) s
  let s := okOr (s.addInstruction
    { opcode := OpCode.MUL, rA := some 5, rB := some 2, rC := some 4 } 3) s
  let s := okOr (s.addInstruction
    { opcode := OpCode.STORE, rA := some 5, rB := some 7, offset := some 1 } 4) s
  okOr (s.addStartAddress 0) s

set_option maxHeartbeats 4000000 in
/-- C2: in the driver scenario, after enough `step()` calls for all stations to
drain (13 suffice), `R1 = 42`, `R2 = 45`, `R4 = 8`, `R5 = 360` and
`Memory[101] = 360`, with every station idle. -/
theorem C2_end_to_end :
    (Tomasulo.step^[13] driverC2).Registers 1 = 42 ∧
    (Tomasulo.step^[13] driverC2).Registers 2 = 45 ∧
    (Tomasulo.step^[13] driverC2).Registers 4 = 8 ∧
    (Tomasulo.step^[13] driverC2).Registers 5 = 360 ∧
    (Tomasulo.step^[13] driverC2).Memory 101 = 360 ∧
    (Tomasulo.step^[13] driverC2).RS.all (fun rs => !rs.busy) = true := by decide

/-- Driver exhibiting the load/store hazard miss: the STORE's base register R2
is produced by a latency-3 MUL (`10 * 10 = 100`), so its effective address
stays uncomputed (`A` = raw offset 0) while the younger LOAD to the same
eventual address `100` runs to completion. -/
def driverC4 : Tomasulo :=
  let s := Tomasulo.new
  let s := { s with
    Registers := fun r => [0,7,0,10,10,0,0,100].getD r 0,
    Memory := fun a => if a = 100 then 42 else 0 }
  let s := s.addReservationStation "MUL1" OpCode.MUL 3 0 0
  let s := s.addReservationStation "STORE1" OpCode.STORE 2 1 1
  let s := s.addReservationStation "LOAD1" OpCode.LOAD 2 1 1
  let s := okOr (s.addInstruction
    { opcode := OpCode.MUL, rA := some 2, rB := some 3, rC := some 4 } 0) s
  let s := okOr (s.addInstruction
    { opcode := OpCode.STORE, rA := some 1, rB := some 2, offset := some 0 } 1) s
  let s := okOr (s.addInstruction
    { opcode := OpCode.LOAD, rA := some 5, rB := some 7, offset := some 0 } 2) s
  okOr (s.addStartAddress 0) s

set_option maxHeartbeats 4000000 in
/-- C4 (counterexample): in `driverC4` the STORE to effective address 100
(station 1, issued at clock 1) is older than the LOAD to effective address 100
(station 2, issued at clock 2), both are in flight, and yet the LOAD completes
its memory read — and even writes back the stale value 42 — while the STORE is
still in flight; after draining, the STORE has written 7 at address 100 but
`R5` keeps the stale 42, so the LOAD never observed the older STORE's value. -/
theorem C4_counterexample :
    -- issue order: MUL (station 0) at clock 0, STORE (station 1) at clock 1,
    -- LOAD (station 2) at clock 2
    ((Tomasulo.step^[3] driverC4).IssuedTracker.map (fun e => (e.rs, e.clock)) =
      [(0, 0), (1, 1), (2, 2)]) ∧
    -- after 5 steps the LOAD has read memory (result 42, from address 100)
    -- while the older STORE is still busy
    ((Tomasulo.step^[5] driverC4).rsAt 2).result = some 42 ∧
    ((Tomasulo.step^[5] driverC4).rsAt 2).A = some 100 ∧
    ((Tomasulo.step^[5] driverC4).rsAt 1).busy = true ∧
    -- one step later the stale 42 is in R5; the STORE is still in flight and
    -- its effective address has now resolved to the same 100
    (Tomasulo.step^[6] driverC4).Registers 5 = 42 ∧
    ((Tomasulo.step^[6] driverC4).rsAt 1).busy = true ∧
    ((Tomasulo.step^[6] driverC4).rsAt 1).A = some 100 ∧
    -- after draining: the STORE wrote 7 at address 100, the LOAD kept 42
    (Tomasulo.step^[7] driverC4).Memory 100 = 7 ∧
    (Tomasulo.step^[7] driverC4).Registers 5 = 42 ∧
    (Tomasulo.step^[7] driverC4).RS.all (fun rs => !rs.busy) = true := by decide

/-- Driver exhibiting the dangling rename after a taken-branch squash:
`BEQ R1,R1,+2` (taken, since `R1 = R1`) followed by a speculatively issued
`ADD R3,R4,R5`. -/
def driverC10 : Tomasulo :=
  let s := Tomasulo.new
  let s := { s with Registers := fun r => [0,4,0,0,2,3,0,0].getD r 0 }
  let s := s.addReservationStation "BEQ1" OpCode.BEQ 2 0 0
  let s := s.addReservationStation "ADD1" OpCode.ADD 2 0 0
  let s := okOr (s.addInstruction
    { opcode := OpCode.BEQ, rA := some 1, rB := some 1, offset := some 2 } 0) s
  let s := okOr (s.addInstruction
    { opcode := OpCode.ADD, rA := some 3, rB := some 4, rC := some 5 } 1) s
  okOr (s.addStartAddress 0) s

set_option maxHeartbeats 1000000 in
/-- C10 (counterexample): after the taken branch resolves in `driverC10`
(3 steps), the squashed station `ADD1` is no longer busy, yet register 3 is
still renamed to `"ADD1"`: a reachable state in which a non-sentinel
Register-Status entry names a non-busy station. -/
theorem C10_counterexample :
    (Tomasulo.step^[3] driverC10).RegisterStatus 3 = some "ADD1" ∧
    ((Tomasulo.step^[3] driverC10).rsAt 1).name = "ADD1" ∧
    ((Tomasulo.step^[3] driverC10).rsAt 1).busy = false ∧
    (Tomasulo.step^[3] driverC10).branchMispredictions = 1 := by decide

/-! ## C3: at most one CDB broadcast per step -/

lemma writeBackAux_count_le_one (s : Tomasulo) (l : List TrackEntry) :
    (s.writeBackAux l).2 ≤ 1 := by
  induction l with
  | nil => simp [Tomasulo.writeBackAux]
  | cons e rest ih =>
    unfold Tomasulo.writeBackAux
    dsimp only
    split
    · split
      · exact Nat.le_refl 1
      · exact ih
    · exact ih

/-- C3: for every engine state (in particular every reachable one), a single
`step()` call performs 0 or 1 CDB broadcasts: the `WriteBack` scan exits after
the first producing station (LOAD/ADD/SUB/NOR/MUL class) it releases. -/
theorem C3_cdb_at_most_one (s : Tomasulo) : s.stepBroadcasts ≤ 1 := by
  unfold Tomasulo.stepBroadcasts
  exact writeBackAux_count_le_one _ _

/-! ## C6: the zero word is a no-op for Issue -/

/-- C6: when no jump is pending and the memory word at PC is the all-zero
sentinel, `Issue` changes nothing at all: the whole state (stations, PC,
Register-Status Table, trackers) is returned untouched. -/
theorem C6_zero_word_issue_noop (s : Tomasulo) (h1 : s.isJumpPending = false)
    (h2 : s.Memory s.PC.toNat = 0) : s.Issue = s := by
  unfold Tomasulo.Issue
  rw [h1]
  simp only [Bool.false_eq_true, if_false]
  split
  · rfl
  · simp only [h2, if_pos rfl]

/-- Witness for C6 at the freshly constructed engine. -/
theorem C6_witness : Tomasulo.new.Issue = Tomasulo.new :=
  C6_zero_word_issue_noop Tomasulo.new rfl rfl

/-! ## C8: validation errors -/

/-- C8 (counterexample): `addData` called with the out-of-range address 65536
but an empty data array does not throw — the guard is
`address < 0 || address + data.length > Memory.length`, and `65536 + 0 > 65536`
is false — so "addData with an address outside [0, 65535] throws" fails for
empty data (the call is accepted as a silent no-op). -/
theorem C8_counterexample :
    (match Tomasulo.addData Tomasulo.new [] 65536 with
      | .ok _ => True
      | .error _ => False) := by
  simp [Tomasulo.addData]

/-- C8 (amended): setters of register fields throw exactly the source's
validation error outside `[0,7]`, `setLabel` outside `[-64,63]`, and
`addStartAddress`/`addInstruction` throw for any address outside `[0,65535]`;
`addData` throws when `address < 0` or `address + data.length > 65536` (for
nonempty data this covers every address outside `[0,65535]`; for empty data at
address 65536 it does not, see the counterexample).  In the `Except` embedding
an error result carries no state, so the aborted operation leaves the
instruction, `Memory` and `PC` unchanged. -/
theorem C8_validation_errors :
    (∀ (i : Instruction) (v : Int), v < 0 ∨ 7 < v →
      i.setrA v = .error "Invalid register number (must be 0-7)") ∧
    (∀ (i : Instruction) (v : Int), v < 0 ∨ 7 < v →
      i.setrB v = .error "Invalid register number (must be 0-7)") ∧
    (∀ (i : Instruction) (v : Int), v < 0 ∨ 7 < v →
      i.setrC v = .error "Invalid register number (must be 0-7)") ∧
    (∀ (i : Instruction) (v : Int), v < -64 ∨ 63 < v →
      i.setLabel v = .error "Label must be a 7-bit signed value (-64 to 63)") ∧
    (∀ (s : Tomasulo) (a : Int), a < 0 ∨ 65536 ≤ a →
      s.addStartAddress a = .error "Starting address out of bounds") ∧
    (∀ (s : Tomasulo) (i : Instruction) (a : Int), a < 0 ∨ 65536 ≤ a →
      s.addInstruction i a = .error "Starting address out of bounds") ∧
    (∀ (s : Tomasulo) (d : List Nat) (a : Int), a < 0 ∨ 65536 < a + d.length →
      s.addData d a = .error "Memory access out of bounds") := by
  refine ⟨?_, ?_, ?_, ?_, ?_, ?_, ?_⟩
  · intro i v h; unfold Instruction.setrA; rw [if_pos h]
  · intro i v h; unfold Instruction.setrB; rw [if_pos h]
  · intro i v h; unfold Instruction.setrC; rw [if_pos h]
  · intro i v h; unfold Instruction.setLabel; rw [if_pos h]
  · intro s a h; unfold Tomasulo.addStartAddress; rw [if_pos h]
  · intro s i a h; unfold Tomasulo.addInstruction; rw [if_pos h]
  · intro s d a h; unfold Tomasulo.addData; rw [if_pos h]

/-- Witness for C8 at concrete out-of-range inputs. -/
theorem C8_validation_errors_witness :
    Instruction.setrA {} 8 = .error "Invalid register number (must be 0-7)" ∧
    Instruction.setrB {} (-1) = .error "Invalid register number (must be 0-7)" ∧
    Instruction.setrC {} 9 = .error "Invalid register number (must be 0-7)" ∧
    Instruction.setLabel {} 64 = .error "Label must be a 7-bit signed value (-64 to 63)" ∧
    Tomasulo.addStartAddress Tomasulo.new 65536 = .error "Starting address out of bounds" ∧
    Tomasulo.addInstruction Tomasulo.new {} (-5) = .error "Starting address out of bounds" ∧
    Tomasulo.addData Tomasulo.new [1] 65536 = .error "Memory access out of bounds" :=
  ⟨C8_validation_errors.1 {} 8 (by decide),
   C8_validation_errors.2.1 {} (-1) (by decide),
   C8_validation_errors.2.2.1 {} 9 (by decide),
   C8_validation_errors.2.2.2.1 {} 64 (by decide),
   C8_validation_errors.2.2.2.2.1 Tomasulo.new 65536 (by decide),
   C8_validation_errors.2.2.2.2.2.1 Tomasulo.new {} (-5) (by decide),
   C8_validation_errors.2.2.2.2.2.2 Tomasulo.new [1] 65536 (by norm_num)⟩

/-! ## C5: effects of a taken branch -/

lemma jsSpliceStart_of_le {len n : Nat} (h : n ≤ len) : jsSpliceStart len n = len - n := by
  unfold jsSpliceStart
  rw [if_neg (by omega)]
  have h2 : ((len : Int) - (n : Int)).toNat = len - n := by omega
  rw [h2]
  exact Nat.min_eq_left (Nat.sub_le len n)

/-- C5: when a busy BEQ station `k` holding `A = a`, `originalPC = p` reaches
`cycles_passed = cycles_needed` with `Vj = Vk`, the BEQ block of `execute`
sets `PC = a + p + 1`, clears `branchPending`, increments the misprediction
counter, truncates exactly the last `IssuedAfterBranch` entries off the Issued
history, resets `IssuedAfterBranch` to 0, squashes every other station whose
`originalPC` exceeds `p` (busy, result, instruction and all four operand
fields cleared), and leaves the register file untouched. -/
theorem C5_branch_taken (s : Tomasulo) (k : Nat) (rs : ReservationStation)
    (hk : s.RS[k]? = some rs) (hunit : rs.unit = OpCode.BEQ)
    (hbusy : rs.busy = true) (hcyc : rs.cycles_passed = rs.cycles_needed)
    (heq : rs.Vj = rs.Vk) (a p : Int) (hA : rs.A = some a) (hP : rs.PC_Original = some p)
    (hn : s.IssuedAfterBranch ≤ s.IssuedTracker.length) :
    (s.execBEQBlock k).PC = a + p + 1 ∧
    (s.execBEQBlock k).isBranchPending = false ∧
    (s.execBEQBlock k).branchMispredictions = s.branchMispredictions + 1 ∧
    (s.execBEQBlock k).IssuedTracker =
      s.IssuedTracker.take (s.IssuedTracker.length - s.IssuedAfterBranch) ∧
    (s.execBEQBlock k).IssuedAfterBranch = 0 ∧
    (s.execBEQBlock k).Registers = s.Registers ∧
    (∀ j rsj, j ≠ k → s.RS[j]? = some rsj → rsj.PC_Original.getD 0 > p →
      (s.execBEQBlock k).RS[j]? = some (squashStation rsj)) := by
  have hrs : s.rsAt k = rs := by
    simp [Tomasulo.rsAt, List.getD_eq_getElem?_getD, hk]
  simp only [Tomasulo.execBEQBlock, hrs, hunit, hbusy, hcyc, heq, hA, hP, if_pos rfl,
    and_self, if_true, Option.getD_some, true_and]
  refine ⟨congrArg (fun m => List.take m s.IssuedTracker) (jsSpliceStart_of_le hn), ?_⟩
  · intro j rsj hjk hj hgt
    rw [List.getElem?_set_ne (fun h => hjk h.symm), List.getElem?_map, hj]
    simp [hgt]

def rsBEQw : ReservationStation :=
  { name := "BEQ1", unit := OpCode.BEQ, busy := true, Operation := some "BEQ",
    Vj := some 4, Vk := some 4, A := some 2, PC_Original := some 0,
    cycles_needed := 2, cycles_passed := 2 }

def rsADDw : ReservationStation :=
  { name := "ADD1", unit := OpCode.ADD, busy := true, Operation := some "ADD",
    Vj := some 2, Vk := some 3, PC_Original := some 1,
    cycles_needed := 2, cycles_passed := 1 }

def sW5 : Tomasulo :=
  { Tomasulo.new with
    RS := [rsBEQw, rsADDw],
    IssuedTracker := [{ Instr := default, clock := 0, rs := 0 },
      { Instr := default, clock := 1, rs := 1 }],
    IssuedAfterBranch := 1,
    isBranchPending := true,
    PC := 2 }

/-- Witness for C5 at a concrete two-station state with a resolving taken BEQ. -/
theorem C5_branch_taken_witness :
    (sW5.execBEQBlock 0).PC = 2 + 0 + 1 ∧
    (sW5.execBEQBlock 0).isBranchPending = false ∧
    (sW5.execBEQBlock 0).branchMispredictions = sW5.branchMispredictions + 1 ∧
    (sW5.execBEQBlock 0).IssuedTracker =
      sW5.IssuedTracker.take (sW5.IssuedTracker.length - sW5.IssuedAfterBranch) ∧
    (sW5.execBEQBlock 0).IssuedAfterBranch = 0 ∧
    (sW5.execBEQBlock 0).Registers = sW5.Registers ∧
    (∀ j rsj, j ≠ 0 → sW5.RS[j]? = some rsj → rsj.PC_Original.getD 0 > 0 →
      (sW5.execBEQBlock 0).RS[j]? = some (squashStation rsj)) :=
  C5_branch_taken sW5 0 rsBEQw (by decide) (by decide) (by decide) (by decide) (by decide)
    2 0 (by decide) (by decide) (by decide)

/-! ## C4 (amended): the hazard stall the code actually performs -/

/-- C4 (amended): at the cycle a busy LOAD station `k` reaches
`cycles_passed = cycles_needed` (past its address-compute sub-phase, no branch
pending), if the engine's hazard scan `loadHazard` fires — there is a busy
STORE station whose *current* `A` field equals the LOAD's and whose latest
issue clock is strictly smaller — then the LOAD does not perform its memory
read this cycle: memory, trackers, registers and PC are unchanged and the
station retries next cycle (`cycles_passed` rewound to `cycles_needed - 1`).
The scan compares current `A` fields only, so an older STORE whose effective
address is not yet computed is not detected and the LOAD may complete while it
is in flight (see the counterexample). -/
theorem C4_amended_stall (s : Tomasulo) (k : Nat) (rs : ReservationStation)
    (hk : s.RS[k]? = some rs) (hunit : rs.unit = OpCode.LOAD)
    (hbusy : rs.busy = true) (hcyc : rs.cycles_passed = rs.cycles_needed)
    (hnaddr : rs.cycles_passed ≠ rs.cycles_needed_to_compute_address)
    (hbp : s.isBranchPending = false)
    (hz : s.loadHazard k = true) :
    (s.execLoadBlock k).RS = s.RS.set k { rs with cycles_passed := rs.cycles_needed - 1 } ∧
    (s.execLoadBlock k).Memory = s.Memory ∧
    (s.execLoadBlock k).ExecutedTracker = s.ExecutedTracker ∧
    (s.execLoadBlock k).Registers = s.Registers ∧
    (s.execLoadBlock k).PC = s.PC := by
  have hrs : s.rsAt k = rs := by
    simp [Tomasulo.rsAt, List.getD_eq_getElem?_getD, hk]
  have hcond1 : ¬ (rs.busy = true ∧ rs.cycles_passed = rs.cycles_needed_to_compute_address ∧
      s.isBranchPending = false) := fun hand => hnaddr hand.2.1
  simp only [Tomasulo.execLoadBlock, hrs]
  rw [if_pos hunit, if_neg hcond1, hrs, if_pos ⟨hbusy, hcyc, hbp⟩, if_pos hz]
  exact ⟨rfl, rfl, rfl, rfl, rfl⟩

def rsSTOREw : ReservationStation :=
  { name := "STORE1", unit := OpCode.STORE, busy := true, Operation := some "STORE",
    Vj := some 3, Vk := some 9, A := some 5, PC_Original := some 0,
    cycles_needed := 2, cycles_passed := 0,
    cycles_needed_to_compute_address := 1, cycles_needed_to_read_write_from_memory := 1 }

def rsLOADw : ReservationStation :=
  { name := "LOAD1", unit := OpCode.LOAD, busy := true, Operation := some "LOAD",
    Vj := some 3, A := some 5, PC_Original := some 1,
    cycles_needed := 2, cycles_passed := 2,
    cycles_needed_to_compute_address := 1, cycles_needed_to_read_write_from_memory := 1 }

def sW4 : Tomasulo :=
  { Tomasulo.new with
    RS := [rsSTOREw, rsLOADw],
    IssuedTracker := [{ Instr := default, clock := 0, rs := 0 },
      { Instr := default, clock := 1, rs := 1 }] }

/-- Witness for the amended C4 at a concrete state where the hazard scan fires. -/
theorem C4_amended_stall_witness :
    (sW4.execLoadBlock 1).RS =
      sW4.RS.set 1 { rsLOADw with cycles_passed := rsLOADw.cycles_needed - 1 } ∧
    (sW4.execLoadBlock 1).Memory = sW4.Memory ∧
    (sW4.execLoadBlock 1).ExecutedTracker = sW4.ExecutedTracker ∧
    (sW4.execLoadBlock 1).Registers = sW4.Registers ∧
    (sW4.execLoadBlock 1).PC = sW4.PC :=
  C4_amended_stall sW4 1 rsLOADw (by decide) (by decide) (by decide) (by decide) (by decide)
    (by decide) (by decide)

/-! ## C9: value-XOR-tag invariant -/

/-- Invariant ② for one station: each operand slot holds a value or a wait-tag,
never both. -/
def stationVXT (rs : ReservationStation) : Prop :=
  (rs.Vj ≠ none → rs.Qj = none) ∧ (rs.Vk ≠ none → rs.Qk = none)

instance : DecidablePred stationVXT := fun rs => by unfold stationVXT; infer_instance

/-- Invariant ② for every station of the pool. -/
def Tomasulo.VXT (s : Tomasulo) : Prop := ∀ rs ∈ s.RS, stationVXT rs

instance (s : Tomasulo) : Decidable s.VXT := List.decidableBAll _ _

lemma LVXT_set {l : List ReservationStation} {k : Nat} {e : ReservationStation}
    (h : ∀ rs ∈ l, stationVXT rs) (he : stationVXT e) : ∀ rs ∈ l.set k e, stationVXT rs := by
  intro rs hmem
  rcases List.mem_or_eq_of_mem_set hmem with hm | rfl
  · exact h _ hm
  · exact he

lemma LVXT_getD {l : List ReservationStation} (h : ∀ rs ∈ l, stationVXT rs) (k : Nat) :
    stationVXT (l.getD k default) := by
  by_cases hk : k < l.length
  · rw [List.getD_eq_getElem?_getD, List.getElem?_eq_getElem hk]
    exact h _ (List.getElem_mem hk)
  · rw [List.getD_eq_getElem?_getD, List.getElem?_eq_none (by omega)]
    exact ⟨fun hc => rfl, fun hc => rfl⟩

lemma stationVXT_clearStation (e : ReservationStation) : stationVXT (clearStation e) :=
  ⟨fun _ => rfl, fun _ => rfl⟩

lemma stationVXT_squashStation (e : ReservationStation) : stationVXT (squashStation e) :=
  ⟨fun _ => rfl, fun _ => rfl⟩

lemma captureOperand_vxt (s : Tomasulo) (r : Int) :
    (s.captureOperand r).1 ≠ none → (s.captureOperand r).2 = none := by
  unfold Tomasulo.captureOperand
  split
  · exact fun _ => rfl
  · exact fun hc => absurd rfl hc

lemma VXT_incrementCyclesPassed (s : Tomasulo) (h : s.VXT) : s.incrementCyclesPassed.VXT := by
  unfold Tomasulo.incrementCyclesPassed
  intro rs hmem
  obtain ⟨rs0, hrs0, rfl⟩ := List.mem_map.mp hmem
  have h0 := h rs0 hrs0
  repeat' split
  all_goals exact h0

lemma VXT_issueLOAD (s : Tomasulo) (instr : Instruction) (h : s.VXT) :
    (s.issueLOAD instr).VXT := by
  unfold Tomasulo.issueLOAD
  split
  · exact h
  · intro rs hmem
    rcases List.mem_or_eq_of_mem_set hmem with hm | rfl
    · exact h _ hm
    · exact ⟨captureOperand_vxt s _, (LVXT_getD h _).2⟩

lemma VXT_issueSTORE (s : Tomasulo) (instr : Instruction) (h : s.VXT) :
    (s.issueSTORE instr).VXT := by
  unfold Tomasulo.issueSTORE
  split
  · exact h
  · intro rs hmem
    rcases List.mem_or_eq_of_mem_set hmem with hm | rfl
    · exact h _ hm
    · exact ⟨captureOperand_vxt s _, captureOperand_vxt s _⟩

lemma VXT_issueALU (s : Tomasulo) (instr : Instruction) (h : s.VXT) :
    (s.issueALU instr).VXT := by
  unfold Tomasulo.issueALU
  dsimp only
  repeat' split
  all_goals first
    | exact h
    | (intro rs hmem
       rcases List.mem_or_eq_of_mem_set hmem with hm | rfl
       · exact h _ hm
       · exact ⟨captureOperand_vxt s _, captureOperand_vxt s _⟩)

lemma VXT_issueBEQ (s : Tomasulo) (instr : Instruction) (h : s.VXT) :
    (s.issueBEQ instr).VXT := by
  unfold Tomasulo.issueBEQ
  split
  · exact h
  · intro rs hmem
    rcases List.mem_or_eq_of_mem_set hmem with hm | rfl
    · exact h _ hm
    · exact ⟨captureOperand_vxt s _, captureOperand_vxt s _⟩

lemma VXT_issueCALLRET (s : Tomasulo) (instr : Instruction) (h : s.VXT) :
    (s.issueCALLRET instr).VXT := by
  unfold Tomasulo.issueCALLRET
  split
  · exact h
  · intro rs hmem
    rcases List.mem_or_eq_of_mem_set hmem with hm | rfl
    · exact h _ hm
    · exact LVXT_getD h _

lemma VXT_Issue (s : Tomasulo) (h : s.VXT) : s.Issue.VXT := by
  unfold Tomasulo.Issue
  dsimp only
  repeat' split
  all_goals first
    | exact h
    | exact VXT_issueLOAD _ _ h
    | exact VXT_issueSTORE _ _ h
    | exact VXT_issueALU _ _ h
    | exact VXT_issueBEQ _ _ h
    | exact VXT_issueCALLRET _ _ h

lemma VXT_execLoadBlock (s : Tomasulo) (k : Nat) (h : s.VXT) : (s.execLoadBlock k).VXT := by
  unfold Tomasulo.execLoadBlock
  dsimp only
  split
  · by_cases c1 : (s.rsAt k).busy = true ∧
        (s.rsAt k).cycles_passed = (s.rsAt k).cycles_needed_to_compute_address ∧
        s.isBranchPending = false
    · rw [if_pos c1]
      have hA : ∀ rs ∈ s.RS.set k
          { s.rsAt k with A := some ((s.rsAt k).Vj.getD 0 + (s.rsAt k).A.getD 0) },
          stationVXT rs := LVXT_set h (LVXT_getD h k)
      split
      · split
        · intro rs hmem
          rcases List.mem_or_eq_of_mem_set hmem with hm | rfl
          · exact hA _ hm
          · exact LVXT_getD hA k
        · intro rs hmem
          rcases List.mem_or_eq_of_mem_set hmem with hm | rfl
          · exact hA _ hm
          · exact LVXT_getD hA k
      · exact hA
    · rw [if_neg c1]
      split
      · split
        · intro rs hmem
          rcases List.mem_or_eq_of_mem_set hmem with hm | rfl
          · exact h _ hm
          · exact LVXT_getD h k
        · intro rs hmem
          rcases List.mem_or_eq_of_mem_set hmem with hm | rfl
          · exact h _ hm
          · exact LVXT_getD h k
      · exact h
  · exact h

lemma VXT_execStoreBlock (s : Tomasulo) (k : Nat) (h : s.VXT) : (s.execStoreBlock k).VXT := by
  unfold Tomasulo.execStoreBlock
  dsimp only
  split
  · by_cases c1 : (s.rsAt k).busy = true ∧
        (s.rsAt k).cycles_passed = (s.rsAt k).cycles_needed_to_compute_address ∧
        s.isBranchPending = false
    · rw [if_pos c1]
      have hA : ∀ rs ∈ s.RS.set k
          { s.rsAt k with A := some ((s.rsAt k).Vj.getD 0 + (s.rsAt k).A.getD 0) },
          stationVXT rs := LVXT_set h (LVXT_getD h k)
      split
      · split
        · intro rs hmem
          rcases List.mem_or_eq_of_mem_set hmem with hm | rfl
          · exact hA _ hm
          · exact LVXT_getD hA k
        · intro rs hmem
          rcases List.mem_or_eq_of_mem_set hmem with hm | rfl
          · exact hA _ hm
          · exact stationVXT_clearStation _
      · exact hA
    · rw [if_neg c1]
      split
      · split
        · intro rs hmem
          rcases List.mem_or_eq_of_mem_set hmem with hm | rfl
          · exact h _ hm
          · exact LVXT_getD h k
        · intro rs hmem
          rcases List.mem_or_eq_of_mem_set hmem with hm | rfl
          · exact h _ hm
          · exact stationVXT_clearStation _
      · exact h
  · exact h

lemma VXT_execBEQBlock (s : Tomasulo) (k : Nat) (h : s.VXT) : (s.execBEQBlock k).VXT := by
  unfold Tomasulo.execBEQBlock
  dsimp only
  repeat' split
  all_goals first
    | exact h
    | (intro rs hmem
       rcases List.mem_or_eq_of_mem_set hmem with hmem2 | rfl
       · first
           | exact h _ hmem2
           | (obtain ⟨rs0, hmem0, rfl⟩ := List.mem_map.mp hmem2
              split
              · exact stationVXT_squashStation _
              · exact h _ hmem0)
       · exact stationVXT_clearStation _)

lemma VXT_execCallBlock (s : Tomasulo) (k : Nat) (h : s.VXT) : (s.execCallBlock k).VXT := by
  unfold Tomasulo.execCallBlock
  dsimp only
  repeat' split
  all_goals first
    | exact h
    | (intro rs hmem
       rcases List.mem_or_eq_of_mem_set hmem with hmem2 | rfl
       · exact h _ hmem2
       · exact stationVXT_clearStation _)

lemma VXT_execAddBlock (s : Tomasulo) (k : Nat) (h : s.VXT) : (s.execAddBlock k).VXT := by
  unfold Tomasulo.execAddBlock
  dsimp only
  repeat' split
  all_goals first
    | exact h
    | (intro rs hmem
       rcases List.mem_or_eq_of_mem_set hmem with hmem2 | rfl
       · exact h _ hmem2
       · exact LVXT_getD h _)

lemma VXT_execNorBlock (s : Tomasulo) (k : Nat) (h : s.VXT) : (s.execNorBlock k).VXT := by
  unfold Tomasulo.execNorBlock
  dsimp only
  repeat' split
  all_goals first
    | exact h
    | (intro rs hmem
       rcases List.mem_or_eq_of_mem_set hmem with hmem2 | rfl
       · exact h _ hmem2
       · exact LVXT_getD h _)

lemma VXT_execMulBlock (s : Tomasulo) (k : Nat) (h : s.VXT) : (s.execMulBlock k).VXT := by
  unfold Tomasulo.execMulBlock
  dsimp only
  repeat' split
  all_goals first
    | exact h
    | (intro rs hmem
       rcases List.mem_or_eq_of_mem_set hmem with hmem2 | rfl
       · exact h _ hmem2
       · exact LVXT_getD h _)

lemma VXT_executeStep (s : Tomasulo) (k : Nat) (h : s.VXT) : (s.executeStep k).VXT :=
  VXT_execMulBlock _ _ (VXT_execNorBlock _ _ (VXT_execAddBlock _ _ (VXT_execCallBlock _ _
    (VXT_execBEQBlock _ _ (VXT_execStoreBlock _ _ (VXT_execLoadBlock _ _ h))))))

lemma foldlPreserve {P : Tomasulo → Prop} (f : Tomasulo → Nat → Tomasulo)
    (h : ∀ t k, P t → P (f t k)) (l : List Nat) : ∀ t, P t → P (l.foldl f t) := by
  induction l with
  | nil => exact fun t ht => ht
  | cons a rest ih => exact fun t ht => ih (f t a) (h t a ht)

lemma VXT_execute (s : Tomasulo) (h : s.VXT) : s.execute.VXT :=
  foldlPreserve Tomasulo.executeStep VXT_executeStep _ s h

lemma VXT_wbBroadcast (s : Tomasulo) (e : TrackEntry) (h : s.VXT) : (s.wbBroadcast e).VXT := by
  unfold Tomasulo.wbBroadcast
  dsimp only
  have hmap : ∀ rs ∈ s.RS.map (fun e2 =>
      let e2 := if e2.Qj == some (s.rsAt e.rs).name
        then { e2 with Vj := some ((s.rsAt e.rs).result.getD 0), Qj := none } else e2
      if e2.Qk == some (s.rsAt e.rs).name
        then { e2 with Vk := some ((s.rsAt e.rs).result.getD 0), Qk := none } else e2),
      stationVXT rs := by
    intro rs hmem
    obtain ⟨rs0, hmem0, rfl⟩ := List.mem_map.mp hmem
    have h0 := h rs0 hmem0
    dsimp only
    split
    · split
      · exact ⟨fun _ => rfl, fun _ => rfl⟩
      · exact ⟨fun _ => rfl, h0.2⟩
    · split
      · exact ⟨h0.1, fun _ => rfl⟩
      · exact h0
  intro rs hmem
  rcases List.mem_or_eq_of_mem_set hmem with hm | rfl
  · exact hmap _ hm
  · exact stationVXT_clearStation _

lemma VXT_writeBackAux (s : Tomasulo) (l : List TrackEntry) (h : s.VXT) :
    (s.writeBackAux l).1.VXT := by
  induction l with
  | nil => exact h
  | cons e rest ih =>
    unfold Tomasulo.writeBackAux
    dsimp only
    split
    · split
      · exact VXT_wbBroadcast _ _ h
      · exact ih
    · exact ih

lemma VXT_step (s : Tomasulo) (h : s.VXT) : s.step.VXT :=
  VXT_writeBackAux _ _ (VXT_execute _ (VXT_Issue _ (VXT_incrementCyclesPassed _ h)))

/-- C9: the value-XOR-tag invariant (`Vj` set implies `Qj` clear, `Vk` set
implies `Qk` clear, for every station) is preserved by every phase of `step` —
Issue operand capture, CDB wakeup, station release and branch squash — and
hence holds in every state reachable from a state satisfying it. -/
theorem C9_value_xor_tag (s : Tomasulo) (h : s.VXT) (n : Nat) :
    (Tomasulo.step^[n] s).VXT := by
  induction n with
  | zero => exact h
  | succ m ih =>
    rw [Function.iterate_succ_apply']
    exact VXT_step _ ih

/-- Witness for C9: the driver scenario satisfies the invariant and keeps it
over a concrete number of steps. -/
theorem C9_value_xor_tag_witness :
    driverC2.VXT ∧ (Tomasulo.step^[5] driverC2).VXT :=
  ⟨by decide, C9_value_xor_tag driverC2 (by decide) 5⟩

/-! ## C7: register 0 is hard-wired to zero -/

/-- Register 0 holds 0 and has no pending writer. -/
def Tomasulo.Reg0 (s : Tomasulo) : Prop :=
  s.Registers 0 = 0 ∧ s.RegisterStatus 0 = none

/-- Every register field produced by `decode` is nonnegative (`?? 0` default or
a masked bit-field). -/
lemma decode_rA_nonneg (w : Nat) : 0 ≤ (Instruction.decode w).rA.getD 0 := by
  unfold Instruction.decode
  dsimp only
  repeat' split
  all_goals simp

lemma Reg0_incrementCyclesPassed (s : Tomasulo) (h : s.Reg0) :
    s.incrementCyclesPassed.Reg0 := h

lemma Reg0_issueLOAD (s : Tomasulo) (instr : Instruction)
    (hA : 0 ≤ instr.rA.getD 0) (h : s.Reg0) : (s.issueLOAD instr).Reg0 := by
  unfold Tomasulo.issueLOAD
  split
  · exact h
  · refine ⟨h.1, ?_⟩
    dsimp only
    by_cases h0 : (0 : Nat) = (instr.rA.getD 0).toNat
    · rw [if_pos h0, if_pos (by omega)]
    · rw [if_neg h0]
      exact h.2

lemma Reg0_issueSTORE (s : Tomasulo) (instr : Instruction) (h : s.Reg0) :
    (s.issueSTORE instr).Reg0 := by
  unfold Tomasulo.issueSTORE
  split
  · exact h
  · exact h

lemma Reg0_issueALU (s : Tomasulo) (instr : Instruction)
    (hA : 0 ≤ instr.rA.getD 0) (h : s.Reg0) : (s.issueALU instr).Reg0 := by
  unfold Tomasulo.issueALU
  dsimp only
  repeat' split
  all_goals first
    | exact h
    | (refine ⟨h.1, ?_⟩
       dsimp only
       by_cases h0 : (0 : Nat) = (instr.rA.getD 0).toNat
       · rw [if_pos h0]
         all_goals first
           | rfl
           | rw [if_pos (by omega)]
           | (exfalso; omega)
       · rw [if_neg h0]
         exact h.2)

lemma Reg0_issueBEQ (s : Tomasulo) (instr : Instruction) (h : s.Reg0) :
    (s.issueBEQ instr).Reg0 := by
  unfold Tomasulo.issueBEQ
  split
  · exact h
  · exact h

lemma Reg0_issueCALLRET (s : Tomasulo) (instr : Instruction) (h : s.Reg0) :
    (s.issueCALLRET instr).Reg0 := by
  unfold Tomasulo.issueCALLRET
  split
  · exact h
  · exact h

lemma Reg0_Issue (s : Tomasulo) (h : s.Reg0) : s.Issue.Reg0 := by
  unfold Tomasulo.Issue
  dsimp only
  repeat' split
  all_goals first
    | exact h
    | exact Reg0_issueLOAD _ _ (decode_rA_nonneg _) h
    | exact Reg0_issueSTORE _ _ h
    | exact Reg0_issueALU _ _ (decode_rA_nonneg _) h
    | exact Reg0_issueBEQ _ _ h
    | exact Reg0_issueCALLRET _ _ h

lemma Reg0_execLoadBlock (s : Tomasulo) (k : Nat) (h : s.Reg0) :
    (s.execLoadBlock k).Reg0 := by
  unfold Tomasulo.execLoadBlock
  dsimp only
  repeat' split
  all_goals exact h

lemma Reg0_execStoreBlock (s : Tomasulo) (k : Nat) (h : s.Reg0) :
    (s.execStoreBlock k).Reg0 := by
  unfold Tomasulo.execStoreBlock
  dsimp only
  repeat' split
  all_goals exact h

lemma Reg0_execBEQBlock (s : Tomasulo) (k : Nat) (h : s.Reg0) :
    (s.execBEQBlock k).Reg0 := by
  unfold Tomasulo.execBEQBlock
  dsimp only
  repeat' split
  all_goals exact h

lemma Reg0_execCallBlock (s : Tomasulo) (k : Nat) (h : s.Reg0) :
    (s.execCallBlock k).Reg0 := by
  unfold Tomasulo.execCallBlock
  dsimp only
  repeat' split
  all_goals first
    | exact h
    | exact ⟨h.1, h.2⟩

lemma Reg0_execAddBlock (s : Tomasulo) (k : Nat) (h : s.Reg0) :
    (s.execAddBlock k).Reg0 := by
  unfold Tomasulo.execAddBlock
  dsimp only
  repeat' split
  all_goals exact h

lemma Reg0_execNorBlock (s : Tomasulo) (k : Nat) (h : s.Reg0) :
    (s.execNorBlock k).Reg0 := by
  unfold Tomasulo.execNorBlock
  dsimp only
  repeat' split
  all_goals exact h

lemma Reg0_execMulBlock (s : Tomasulo) (k : Nat) (h : s.Reg0) :
    (s.execMulBlock k).Reg0 := by
  unfold Tomasulo.execMulBlock
  dsimp only
  repeat' split
  all_goals exact h

lemma Reg0_executeStep (s : Tomasulo) (k : Nat) (h : s.Reg0) : (s.executeStep k).Reg0 :=
  Reg0_execMulBlock _ _ (Reg0_execNorBlock _ _ (Reg0_execAddBlock _ _ (Reg0_execCallBlock _ _
    (Reg0_execBEQBlock _ _ (Reg0_execStoreBlock _ _ (Reg0_execLoadBlock _ _ h))))))

lemma Reg0_execute (s : Tomasulo) (h : s.Reg0) : s.execute.Reg0 :=
  foldlPreserve Tomasulo.executeStep Reg0_executeStep _ s h

lemma Reg0_wbBroadcast (s : Tomasulo) (e : TrackEntry) (h : s.Reg0) :
    (s.wbBroadcast e).Reg0 := by
  unfold Tomasulo.wbBroadcast
  dsimp only
  constructor
  · cases hfind : (List.range 8).find?
        (fun i => s.RegisterStatus i == some (s.rsAt e.rs).name) with
    | none => simp only [hfind]; exact h.1
    | some i =>
      simp only [hfind]
      by_cases h0 : (0 : Nat) = i
      · rw [if_pos h0, if_pos h0.symm]
      · rw [if_neg h0]
        exact h.1
  · cases hfind : (List.range 8).find?
        (fun i => s.RegisterStatus i == some (s.rsAt e.rs).name) with
    | none => simp only [hfind]; exact h.2
    | some i =>
      simp only [hfind]
      by_cases h0 : (0 : Nat) = i
      · rw [if_pos h0]
      · rw [if_neg h0]
        exact h.2

lemma Reg0_writeBackAux (s : Tomasulo) (l : List TrackEntry) (h : s.Reg0) :
    (s.writeBackAux l).1.Reg0 := by
  induction l with
  | nil => exact h
  | cons e rest ih =>
    unfold Tomasulo.writeBackAux
    dsimp only
    split
    · split
      · exact Reg0_wbBroadcast _ _ h
      · exact ih
    · exact ih

lemma Reg0_step (s : Tomasulo) (h : s.Reg0) : s.step.Reg0 :=
  Reg0_writeBackAux _ _ (Reg0_execute _ (Reg0_Issue _ (Reg0_incrementCyclesPassed _ h)))

/-- C7: if register 0 initially holds 0 and its Register-Status entry is the
committed sentinel, then after any number of `step()` calls register 0 still
holds 0 (a CDB writeback targeting it writes 0 instead of the broadcast value)
and its Register-Status entry is still the sentinel (Issue renames register 0
to the sentinel, never to a station). -/
theorem C7_register0_hardwired (s : Tomasulo) (h0 : s.Registers 0 = 0)
    (h1 : s.RegisterStatus 0 = none) (n : Nat) :
    (Tomasulo.step^[n] s).Registers 0 = 0 ∧
      (Tomasulo.step^[n] s).RegisterStatus 0 = none := by
  have : (Tomasulo.step^[n] s).Reg0 := by
    induction n with
    | zero => exact ⟨h0, h1⟩
    | succ m ih =>
      rw [Function.iterate_succ_apply']
      exact Reg0_step _ ih
  exact this

/-- Witness for C7 on the driver scenario. -/
theorem C7_register0_hardwired_witness :
    (Tomasulo.step^[6] driverC2).Registers 0 = 0 ∧
      (Tomasulo.step^[6] driverC2).RegisterStatus 0 = none :=
  C7_register0_hardwired driverC2 rfl rfl 6

/-! ## C10 (amended): Register-Status entries name stations of the pool -/

/-- Every non-sentinel Register-Status entry is the name of some station in
the pool (busy or not). -/
def Tomasulo.RSNames (s : Tomasulo) : Prop :=
  ∀ (r : Nat) (nm : String), s.RegisterStatus r = some nm →
    nm ∈ s.RS.map (fun rs => rs.name)

lemma map_name_set (l : List ReservationStation) (k : Nat) (e : ReservationStation)
    (hname : e.name = (l.getD k default).name) :
    (l.set k e).map (fun rs => rs.name) = l.map (fun rs => rs.name) := by
  apply List.ext_getElem?
  intro j
  by_cases hj : j = k
  · subst hj
    by_cases hlt : j < l.length
    · rw [List.getElem?_map, List.getElem?_map, List.getElem?_set_self']
      simp [List.getElem?_eq_getElem hlt, hname, List.getD_eq_getElem?_getD]
    · rw [List.set_eq_of_length_le (by omega)]
  · rw [List.getElem?_map, List.getElem?_set_ne (fun hh => hj hh.symm), List.getElem?_map]

lemma map_name_map (l : List ReservationStation) (f : ReservationStation → ReservationStation)
    (hf : ∀ e, (f e).name = e.name) :
    (l.map f).map (fun rs => rs.name) = l.map (fun rs => rs.name) := by
  rw [List.map_map]
  exact List.map_congr_left (fun a _ => hf a)

lemma mem_name_set {l : List ReservationStation} {k : Nat} {e : ReservationStation}
    {nm : String} (hname : e.name = (l.getD k default).name)
    (h : nm ∈ l.map (fun rs => rs.name)) : nm ∈ (l.set k e).map (fun rs => rs.name) := by
  rw [map_name_set _ _ _ hname]
  exact h

lemma map_name_set_trans {l : List ReservationStation} {k : Nat} {e : ReservationStation}
    {tgt : List String} (hname : e.name = (l.getD k default).name)
    (h : l.map (fun rs => rs.name) = tgt) :
    (l.set k e).map (fun rs => rs.name) = tgt :=
  (map_name_set l k e hname).trans h

/-- Frame rule: a state with the same Register-Status function and the same
station names satisfies `RSNames` whenever `s` does. -/
lemma RSNames_frame {s t : Tomasulo} (h : s.RSNames)
    (hreg : t.RegisterStatus = s.RegisterStatus)
    (hnames : t.RS.map (fun rs => rs.name) = s.RS.map (fun rs => rs.name)) : t.RSNames := by
  intro r nm hr
  rw [hnames]
  exact h r nm (by rw [← hreg]; exact hr)

lemma RSNames_incrementCyclesPassed (s : Tomasulo) (h : s.RSNames) :
    s.incrementCyclesPassed.RSNames := by
  refine RSNames_frame h rfl ?_
  apply map_name_map
  intro e
  dsimp only
  repeat' split
  all_goals rfl

lemma RSNames_issueLOAD (s : Tomasulo) (instr : Instruction) (h : s.RSNames) :
    (s.issueLOAD instr).RSNames := by
  unfold Tomasulo.issueLOAD
  split
  · exact h
  · rename_i k heq
    intro r nm hr
    dsimp only at hr ⊢
    refine mem_name_set rfl ?_
    have hklen : k < s.RS.length := (List.findIdx?_eq_some_iff_findIdx_eq.mp heq).1
    by_cases hreq : r = (instr.rA.getD 0).toNat
    · rw [if_pos hreq] at hr
      by_cases hz : instr.rA.getD 0 = 0
      · rw [if_pos hz] at hr; cases hr
      · rw [if_neg hz] at hr
        obtain rfl : (s.rsAt k).name = nm := Option.some.inj hr
        have hrs : s.rsAt k = s.RS[k] := by
          simp [Tomasulo.rsAt, List.getD_eq_getElem?_getD, List.getElem?_eq_getElem hklen]
        rw [hrs]
        exact List.mem_map_of_mem _ (List.getElem_mem hklen)
    · rw [if_neg hreq] at hr
      exact h r nm hr

lemma RSNames_issueSTORE (s : Tomasulo) (instr : Instruction) (h : s.RSNames) :
    (s.issueSTORE instr).RSNames := by
  unfold Tomasulo.issueSTORE
  split
  · exact h
  · exact RSNames_frame h rfl (map_name_set _ _ _ rfl)

lemma RSNames_issueALU (s : Tomasulo) (instr : Instruction) (h : s.RSNames) :
    (s.issueALU instr).RSNames := by
  unfold Tomasulo.issueALU
  split
  · exact h
  · rename_i k heq
    intro r nm hr
    dsimp only at hr ⊢
    refine mem_name_set rfl ?_
    have hklen : k < s.RS.length := (List.findIdx?_eq_some_iff_findIdx_eq.mp heq).1
    by_cases hreq : r = (instr.rA.getD 0).toNat
    · rw [if_pos hreq] at hr
      by_cases hz : instr.rA.getD 0 = 0
      · rw [if_pos hz] at hr; cases hr
      · rw [if_neg hz] at hr
        obtain rfl : (s.rsAt k).name = nm := Option.some.inj hr
        have hrs : s.rsAt k = s.RS[k] := by
          simp [Tomasulo.rsAt, List.getD_eq_getElem?_getD, List.getElem?_eq_getElem hklen]
        rw [hrs]
        exact List.mem_map_of_mem _ (List.getElem_mem hklen)
    · rw [if_neg hreq] at hr
      exact h r nm hr

lemma RSNames_issueBEQ (s : Tomasulo) (instr : Instruction) (h : s.RSNames) :
    (s.issueBEQ instr).RSNames := by
  unfold Tomasulo.issueBEQ
  split
  · exact h
  · exact RSNames_frame h rfl (map_name_set _ _ _ rfl)

lemma RSNames_issueCALLRET (s : Tomasulo) (instr : Instruction) (h : s.RSNames) :
    (s.issueCALLRET instr).RSNames := by
  unfold Tomasulo.issueCALLRET
  split
  · exact h
  · exact RSNames_frame h rfl (map_name_set _ _ _ rfl)

lemma RSNames_Issue (s : Tomasulo) (h : s.RSNames) : s.Issue.RSNames := by
  unfold Tomasulo.Issue
  dsimp only
  repeat' split
  all_goals first
    | exact h
    | exact RSNames_issueLOAD _ _ h
    | exact RSNames_issueSTORE _ _ h
    | exact RSNames_issueALU _ _ h
    | exact RSNames_issueBEQ _ _ h
    | exact RSNames_issueCALLRET _ _ h

lemma RSNames_execLoadBlock (s : Tomasulo) (k : Nat) (h : s.RSNames) :
    (s.execLoadBlock k).RSNames := by
  unfold Tomasulo.execLoadBlock
  dsimp only
  repeat' split
  all_goals refine RSNames_frame h rfl ?_
  all_goals first
    | rfl
    | exact map_name_set_trans rfl rfl
    | exact map_name_set_trans rfl (map_name_set_trans rfl rfl)

lemma RSNames_execStoreBlock (s : Tomasulo) (k : Nat) (h : s.RSNames) :
    (s.execStoreBlock k).RSNames := by
  unfold Tomasulo.execStoreBlock
  dsimp only
  repeat' split
  all_goals refine RSNames_frame h rfl ?_
  all_goals first
    | rfl
    | exact map_name_set_trans rfl rfl
    | exact map_name_set_trans rfl (map_name_set_trans rfl rfl)

lemma RSNames_execBEQBlock (s : Tomasulo) (k : Nat) (h : s.RSNames) :
    (s.execBEQBlock k).RSNames := by
  unfold Tomasulo.execBEQBlock
  dsimp only
  repeat' split
  all_goals refine RSNames_frame h rfl ?_
  all_goals first
    | rfl
    | exact map_name_set_trans rfl rfl
    | exact map_name_set_trans rfl
        (map_name_map _ _ (fun e => by first | (dsimp only; split <;> rfl) | (split <;> rfl) | rfl))

lemma RSNames_execCallBlock (s : Tomasulo) (k : Nat) (h : s.RSNames) :
    (s.execCallBlock k).RSNames := by
  unfold Tomasulo.execCallBlock
  dsimp only
  repeat' split
  all_goals refine RSNames_frame h rfl ?_
  all_goals first
    | rfl
    | exact map_name_set_trans rfl rfl

lemma RSNames_execAddBlock (s : Tomasulo) (k : Nat) (h : s.RSNames) :
    (s.execAddBlock k).RSNames := by
  unfold Tomasulo.execAddBlock
  dsimp only
  repeat' split
  all_goals refine RSNames_frame h rfl ?_
  all_goals first
    | rfl
    | exact map_name_set_trans rfl rfl

lemma RSNames_execNorBlock (s : Tomasulo) (k : Nat) (h : s.RSNames) :
    (s.execNorBlock k).RSNames := by
  unfold Tomasulo.execNorBlock
  dsimp only
  repeat' split
  all_goals refine RSNames_frame h rfl ?_
  all_goals first
    | rfl
    | exact map_name_set_trans rfl rfl

lemma RSNames_execMulBlock (s : Tomasulo) (k : Nat) (h : s.RSNames) :
    (s.execMulBlock k).RSNames := by
  unfold Tomasulo.execMulBlock
  dsimp only
  repeat' split
  all_goals refine RSNames_frame h rfl ?_
  all_goals first
    | rfl
    | exact map_name_set_trans rfl rfl

lemma RSNames_executeStep (s : Tomasulo) (k : Nat) (h : s.RSNames) :
    (s.executeStep k).RSNames :=
  RSNames_execMulBlock _ _ (RSNames_execNorBlock _ _ (RSNames_execAddBlock _ _
    (RSNames_execCallBlock _ _ (RSNames_execBEQBlock _ _ (RSNames_execStoreBlock _ _
      (RSNames_execLoadBlock _ _ h))))))

lemma RSNames_execute (s : Tomasulo) (h : s.RSNames) : s.execute.RSNames :=
  foldlPreserve Tomasulo.executeStep RSNames_executeStep _ s h

lemma RSNames_wbBroadcast (s : Tomasulo) (e : TrackEntry) (h : s.RSNames) :
    (s.wbBroadcast e).RSNames := by
  have hnames : (s.wbBroadcast e).RS.map (fun rs => rs.name) =
      s.RS.map (fun rs => rs.name) := by
    unfold Tomasulo.wbBroadcast
    dsimp only
    exact map_name_set_trans rfl
      (map_name_map _ _ (fun e2 => by
        cases h1 : e2.Qj == some (s.rsAt e.rs).name <;>
          cases h2 : e2.Qk == some (s.rsAt e.rs).name <;>
            simp [h1, h2]))
  intro r nm hr
  rw [hnames]
  unfold Tomasulo.wbBroadcast at hr
  dsimp only at hr
  cases hfind : (List.range 8).find?
      (fun i => s.RegisterStatus i == some (s.rsAt e.rs).name) with
  | none =>
    rw [hfind] at hr
    exact h r nm hr
  | some i =>
    rw [hfind] at hr
    dsimp only at hr
    by_cases hri : r = i
    · rw [if_pos hri] at hr; cases hr
    · rw [if_neg hri] at hr
      exact h r nm hr

lemma RSNames_writeBackAux (s : Tomasulo) (l : List TrackEntry) (h : s.RSNames) :
    (s.writeBackAux l).1.RSNames := by
  induction l with
  | nil => exact h
  | cons e rest ih =>
    unfold Tomasulo.writeBackAux
    dsimp only
    split
    · split
      · exact RSNames_wbBroadcast _ _ h
      · exact ih
    · exact ih

lemma RSNames_step (s : Tomasulo) (h : s.RSNames) : s.step.RSNames :=
  RSNames_writeBackAux _ _ (RSNames_execute _ (RSNames_Issue _
    (RSNames_incrementCyclesPassed _ h)))

/-- C10 (amended): in every state reachable from one satisfying it, every
non-sentinel Register-Status entry is the name of a reservation station present
in the pool — busy or not.  (As `C10_counterexample` shows, the squashed
station need not be busy: the taken-branch rollback clears `busy` without
clearing Register-Status.) -/
theorem C10_regstatus_names (s : Tomasulo) (h : s.RSNames) (n : Nat) :
    (Tomasulo.step^[n] s).RSNames := by
  induction n with
  | zero => exact h
  | succ m ih =>
    rw [Function.iterate_succ_apply']
    exact RSNames_step _ ih

/-- Witness for the amended C10 on the squash driver itself. -/
theorem C10_regstatus_names_witness :
    (Tomasulo.step^[3] driverC10).RSNames :=
  C10_regstatus_names driverC10 (fun r nm hr => Option.noConfusion hr) 3
